import Mathlib

/-!
Shallow embedding of the IMVED employee-analytics dashboard
(`analysis.py`): data model, loader, filter engine, KPI and
aggregation computations, correlation matrix and CSV export.

Rows of the loaded table are modelled by the `Employee` structure;
the table itself is a `List Employee` kept in source order.  Numeric
columns of the underlying frame are modelled by `Int` (integers of the
source data), statistics by `ℚ`, and the correlation computation —
which the source performs with real square roots — by `ℝ` with an
`Option` wrapper marking entries the source computes as NaN.
-/

/-- One row of the source table (`pd.read_csv` result), with the
columns the script uses: `EmployeeID`, `Department`, `JobRole`,
`City`, `Gender`, `YearsOfExperience`, `SalaryINR`, `Attrition`. -/
structure Employee where
  employeeID : Int
  department : String
  jobRole : String
  city : String
  gender : String
  yearsOfExperience : Int
  salaryINR : Int
  attrition : String
deriving DecidableEq

/-- The lambda in `load_data`: `1 if x == 'Yes' else 0`, applied to the
(possibly missing, hence `Option`) attrition cell of a row.  A missing
value (pandas `NaN`) compares unequal to `'Yes'` and yields `0`. -/
def attritionMirror (v : Option String) : Int :=
  if v = some "Yes" then 1 else 0

/-- The derived `AttritionNumeric` column for a well-formed row. -/
def attritionNumeric (e : Employee) : Int :=
  attritionMirror (some e.attrition)

/-- The sidebar filter state: `selected_departments`,
`selected_cities`, `selected_exp` in `st.session_state`. -/
structure Selection where
  departments : List String
  cities : List String
  expRange : Int × Int
deriving DecidableEq

/-- `filtered_df`: rows of `df` whose department is in
`selected_departments`, whose city is in `selected_cities`, and whose
`YearsOfExperience` is `between` the two slider bounds (inclusive). -/
def filtered_df (df : List Employee) (sel : Selection) : List Employee :=
  df.filter fun e =>
    sel.departments.contains e.department &&
    sel.cities.contains e.city &&
    decide (sel.expRange.1 ≤ e.yearsOfExperience) &&
    decide (e.yearsOfExperience ≤ sel.expRange.2)

/-- `pandas.Series.unique` / the key set of a `groupby`: the distinct
values occurring in a column, in order of first appearance (pandas
sorts group keys; the claims below are insensitive to the order, only
to the set of keys and their counts). -/
def uniqueVals {α : Type} [DecidableEq α] : List α → List α
  | [] => []
  | x :: xs => x :: (uniqueVals xs).filter (fun y => y ≠ x)

/-- `Series.min` on an integer column: `none` on an empty column
(pandas returns NaN there, and the script's `int(...)` conversion then
raises). -/
def seriesMin : List Int → Option Int
  | [] => none
  | x :: xs => some (xs.foldl min x)

/-- `Series.max` on an integer column, `none` on an empty column. -/
def seriesMax : List Int → Option Int
  | [] => none
  | x :: xs => some (xs.foldl max x)

/-- The `Reset All Filters` handler: sets the department subset to
`df['Department'].unique()`, the city subset to `df['City'].unique()`
and the experience range to `(int(min), int(max))` of
`df['YearsOfExperience']`.  On an empty table the `int` conversion of
NaN raises, modelled by `none`. -/
def reset_selection (df : List Employee) : Option Selection :=
  match seriesMin (df.map Employee.yearsOfExperience),
        seriesMax (df.map Employee.yearsOfExperience) with
  | some lo, some hi =>
      some ⟨uniqueVals (df.map Employee.department),
            uniqueVals (df.map Employee.city), (lo, hi)⟩
  | _, _ => none

/-- `total_employees = filtered_df.shape[0]`. -/
def total_employees (view : List Employee) : Nat :=
  view.length

/-- `attrition_count = filtered_df[filtered_df['Attrition'] == 'Yes'].shape[0]`. -/
def attrition_count (view : List Employee) : Nat :=
  (view.filter fun e => e.attrition == "Yes").length

/-- `attrition_rate = (attrition_count / total_employees) * 100 if
total_employees > 0 else 0`. -/
def attrition_rate (view : List Employee) : ℚ :=
  if 0 < total_employees view then
    ((attrition_count view : ℚ) / (total_employees view : ℚ)) * 100
  else 0

/-- `avg_salary = filtered_df['SalaryINR'].mean()`: the arithmetic
mean of the salary column, NaN (modelled `none`) on an empty view. -/
def avg_salary (view : List Employee) : Option ℚ :=
  if view = [] then none
  else some (((view.map Employee.salaryINR).sum : ℚ) / (view.length : ℚ))

/-- The rendering of the average-salary metric: either a number or the
NaN display the f-string produces for an empty view. -/
inductive SalaryMetric where
  | nanDisplay
  | value (q : ℚ)
deriving DecidableEq

/-- The `st.metric` value for average salary: total on every view,
showing NaN rather than failing when the view is empty. -/
def avg_salary_metric (view : List Employee) : SalaryMetric :=
  match avg_salary view with
  | none => .nanDisplay
  | some q => .value q

/-- `attrition_dept = filtered_df.groupby(['Department', 'Attrition']).size().reset_index(name='count')`:
one entry per (department, attrition) key that occurs in the view,
carrying the number of rows with that key.  Keys with no rows do not
appear. -/
def attrition_dept (view : List Employee) : List ((String × String) × Nat) :=
  (uniqueVals (view.map fun e => (e.department, e.attrition))).map
    fun k => (k, (view.filter fun e => decide ((e.department, e.attrition) = k)).length)

/-- `Series.value_counts` (order by count abstracted away): one entry
per distinct value with its number of occurrences. -/
def value_counts (col : List String) : List (String × Nat) :=
  (uniqueVals col).map fun v => (v, col.count v)

/-- `gender_counts = filtered_df['Gender'].value_counts()`. -/
def gender_counts (view : List Employee) : List (String × Nat) :=
  value_counts (view.map Employee.gender)

/-- `tech_df = filtered_df[filtered_df['Department'] == 'Technology']`. -/
def tech_df (view : List Employee) : List Employee :=
  view.filter fun e => e.department == "Technology"

/-- `role_counts = tech_df['JobRole'].value_counts()` (computed on the
department-restricted view). -/
def role_counts (view : List Employee) : List (String × Nat) :=
  value_counts (view.map Employee.jobRole)

/-- The job-roles panel: the chart when `tech_df` is non-empty,
otherwise the `st.info("No data available ...")` branch. -/
inductive RoleChart where
  | noData
  | chart (counts : List (String × Nat))
deriving DecidableEq

/-- The `if not tech_df.empty: ... else: st.info(...)` branch of tab 1. -/
def roles_section (view : List Employee) : RoleChart :=
  if tech_df view = [] then .noData else .chart (role_counts (tech_df view))

/-- The data fed to the salary histogram (`px.histogram` x-values). -/
def salary_values (view : List Employee) : List Int :=
  view.map Employee.salaryINR

/-- The data fed to the salary-vs-experience scatter plot: raw
(experience, salary, department) triples of the view. -/
def scatter_points (view : List Employee) : List (Int × Int × String) :=
  view.map fun e => (e.yearsOfExperience, e.salaryINR, e.department)

/-- The numeric columns of the loaded frame, as selected by
`select_dtypes(include=np.number)`: `EmployeeID`,
`YearsOfExperience`, `SalaryINR` and the derived `AttritionNumeric`. -/
inductive NumCol where
  | employeeID
  | yearsOfExperience
  | salaryINR
  | attritionNumeric
deriving DecidableEq

/-- `numerical_cols.columns`, the options of the heatmap multiselect. -/
def numerical_cols : List NumCol :=
  [.employeeID, .yearsOfExperience, .salaryINR, .attritionNumeric]

/-- The default of the heatmap multiselect:
`[col for col in numerical_cols.columns if col not in ['EmployeeID', 'AttritionNumeric']]`. -/
def default_corr_cols : List NumCol :=
  numerical_cols.filter fun c => !([NumCol.employeeID, NumCol.attritionNumeric].contains c)

/-- The value of a numeric column at a row (exact rationals standing
for the float arithmetic the frame performs). -/
def colVal : NumCol → Employee → ℚ
  | .employeeID => fun e => (e.employeeID : ℚ)
  | .yearsOfExperience => fun e => (e.yearsOfExperience : ℚ)
  | .salaryINR => fun e => (e.salaryINR : ℚ)
  | .attritionNumeric => fun e => (attritionNumeric e : ℚ)

/-- Column mean over the view (0 on an empty view; it is only ever
used inside deviation sums, which vanish there anyway). -/
def colMean (view : List Employee) (c : NumCol) : ℚ :=
  ((view.map (colVal c)).sum) / (view.length : ℚ)

/-- Sum of products of deviations from the mean, the common kernel of
the covariance/variance entries of `DataFrame.corr` (the `n - 1`
normalisations of covariance and standard deviation cancel in the
correlation quotient, so they are omitted on both sides). -/
def sDev (view : List Employee) (c d : NumCol) : ℚ :=
  (view.map fun e =>
    (colVal c e - colMean view c) * (colVal d e - colMean view d)).sum

/-- One entry of `corr = numerical_cols[selected_cols].corr()`:
Pearson correlation `S_cd / sqrt(S_cc * S_dd)`.  When a standard
deviation is zero (constant column, or fewer than two rows) pandas
produces NaN, modelled as `none`. -/
noncomputable def corr (view : List Employee) (c d : NumCol) : Option ℝ :=
  if sDev view c c * sDev view d d = 0 then none
  else some ((sDev view c d : ℝ) /
    Real.sqrt ((sDev view c c : ℝ) * (sDev view d d : ℝ)))

/-- The correlation matrix over the chosen columns, row and column
order following the selection. -/
noncomputable def corr_matrix (view : List Employee) (sel : List NumCol) :
    List (List (Option ℝ)) :=
  sel.map fun c => sel.map fun d => corr view c d

/-- Tab 3's outcome: the heatmap when `selected_cols` is non-empty,
otherwise the `st.warning("Please select at least one feature ...")`
branch. -/
inductive CorrSection where
  | emptySelectionWarning
  | heatmap (m : List (List (Option ℝ)))

/-- The `if selected_cols: ... else: st.warning(...)` branch of tab 3. -/
noncomputable def corr_section (view : List Employee) (sel : List NumCol) :
    CorrSection :=
  if sel = [] then .emptySelectionWarning else .heatmap (corr_matrix view sel)

/-- Numeric value of a decimal digit character. -/
def digitVal (c : Char) : Nat := c.toNat - 48

/-- Decimal rendering of a natural number, as `to_csv` renders an
int64 cell. -/
def natChars (n : Nat) : List Char :=
  if n = 0 then ['0'] else (Nat.digits 10 n).reverse.map Nat.digitChar

/-- Parsing of a non-empty all-digit string back to a natural number,
as `read_csv` types an integer cell. -/
def charsToNat (cs : List Char) : Option Nat :=
  if cs ≠ [] ∧ cs.all Char.isDigit then
    some (Nat.ofDigits 10 ((cs.map digitVal).reverse))
  else none

/-- Decimal rendering of an integer cell. -/
def intChars (i : Int) : List Char :=
  if i < 0 then '-' :: natChars i.natAbs else natChars i.natAbs

/-- Parsing of an integer cell. -/
def charsToInt : List Char → Option Int
  | [] => none
  | c :: cs =>
      if c = '-' then (charsToNat cs).map fun n : Nat => -(n : Int)
      else (charsToNat (c :: cs)).map fun n : Nat => (n : Int)

/-- Characters that force quoting of a CSV field under the
`QUOTE_MINIMAL` policy `to_csv` uses: the delimiter, the quote
character, and line terminators. -/
def isSpecialChar (c : Char) : Bool :=
  c == ',' || c == '"' || c == '\n' || c == '\r'

/-- Doubling of quote characters inside a quoted CSV field. -/
def escapeQuotes : List Char → List Char
  | [] => []
  | c :: cs =>
      if c = '"' then '"' :: '"' :: escapeQuotes cs
      else c :: escapeQuotes cs

/-- One rendered CSV field: quoted (with doubled inner quotes) exactly
when it contains a delimiter, quote or line terminator. -/
def renderField (f : List Char) : List Char :=
  if f.any isSpecialChar then '"' :: (escapeQuotes f ++ ['"']) else f

/-- One rendered CSV record: fields joined by commas. -/
def renderRecord : List (List Char) → List Char
  | [] => []
  | [f] => renderField f
  | f :: fs => renderField f ++ ',' :: renderRecord fs

/-- A rendered CSV byte stream: each record followed by a newline, as
`DataFrame.to_csv` emits. -/
def renderCsv : List (List (List Char)) → List Char
  | [] => []
  | r :: rs => renderRecord r ++ '\n' :: renderCsv rs

/-- The CSV reading automaton (the dialect `read_csv` uses: comma
delimiter, doubled-quote escapes).  Arguments: remaining input, a flag
for being inside a quoted field, the characters of the current field,
the completed fields of the current record, and the completed
records.  An unterminated quote at end of input is a parse failure. -/
def csvRun : List Char → Bool → List Char → List (List Char) →
    List (List (List Char)) → Option (List (List (List Char)))
  | [], q, cur, fs, rows =>
      if q then none
      else if cur = [] ∧ fs = [] then some rows
      else some (rows ++ [fs ++ [cur]])
  | c :: cs, q, cur, fs, rows =>
      if q then
        if c = '"' then
          match cs with
          | [] => if cur = [] ∧ fs = [] then some rows else some (rows ++ [fs ++ [cur]])
          | c2 :: cs2 =>
              if c2 = '"' then csvRun cs2 true (cur ++ ['"']) fs rows
              else csvRun (c2 :: cs2) false cur fs rows
        else csvRun cs true (cur ++ [c]) fs rows
      else
        if c = ',' then csvRun cs false [] (fs ++ [cur]) rows
        else if c = '\n' then csvRun cs false [] [] (rows ++ [fs ++ [cur]])
        else if c = '"' ∧ cur = [] then csvRun cs true [] fs rows
        else csvRun cs false (cur ++ [c]) fs rows

/-- Parsing a CSV byte stream into its grid of cells. -/
def parseCsv (cs : List Char) : Option (List (List (List Char))) :=
  csvRun cs false [] [] []

/-- The header record of the export: the input column layout plus the
derived `AttritionNumeric` column. -/
def headerCells : List (List Char) :=
  ["EmployeeID".data, "Department".data, "JobRole".data, "City".data,
   "Gender".data, "YearsOfExperience".data, "SalaryINR".data,
   "Attrition".data, "AttritionNumeric".data]

/-- The rendered cells of one data row of the export. -/
def rowCells (e : Employee) : List (List Char) :=
  [intChars e.employeeID, e.department.data, e.jobRole.data, e.city.data,
   e.gender.data, intChars e.yearsOfExperience, intChars e.salaryINR,
   e.attrition.data, intChars (attritionNumeric e)]

/-- The cell grid of the export of a view: header then data rows. -/
def csvGrid (view : List Employee) : List (List (List Char)) :=
  headerCells :: view.map rowCells

/-- `convert_df_to_csv`: `df.to_csv(index=False).encode('utf-8')`, the
downloadable byte stream of the current view. -/
def convert_df_to_csv (view : List Employee) : List Char :=
  renderCsv (csvGrid view)

/-- Typing one parsed data record back into a row, as `read_csv`
types the columns of the exported file. -/
def decodeRow : List (List Char) → Option Employee
  | [c0, c1, c2, c3, c4, c5, c6, c7, c8] =>
      match charsToInt c0, charsToInt c5, charsToInt c6, charsToInt c8 with
      | some i, some yoe, some sal, some _ =>
          some ⟨i, String.mk c1, String.mk c2, String.mk c3, String.mk c4,
                yoe, sal, String.mk c7⟩
      | _, _, _, _ => none
  | _ => none

/-- Typing all parsed data records. -/
def decodeRows : List (List (List Char)) → Option (List Employee)
  | [] => some []
  | r :: rs =>
      match decodeRow r, decodeRows rs with
      | some e, some es => some (e :: es)
      | _, _ => none

/-- Reading an exported grid back into a table: the first record must
be the expected header, the rest are typed data rows. -/
def decodeTable : List (List (List Char)) → Option (List Employee)
  | [] => none
  | h :: rs => if h = headerCells then decodeRows rs else none

/-- Sample rows used to instantiate the verification statements on
concrete data. -/
def sampleYes : Employee :=
  ⟨1, "Technology", "Engineer", "Delhi", "Female", 5, 50000, "Yes"⟩

/-- A second sample row, outside the Technology department. -/
def sampleNo : Employee :=
  ⟨2, "Sales", "Manager", "Pune", "Male", 3, 30000, "No"⟩

/-- Two rows with distinct salary and experience values, giving both
columns nonzero variance. -/
def sampleA : Employee :=
  ⟨3, "Technology", "Engineer", "Delhi", "Male", 1, 10, "No"⟩

/-- Companion row of `sampleA`. -/
def sampleB : Employee :=
  ⟨4, "Technology", "Analyst", "Mumbai", "Female", 3, 20, "Yes"⟩

/-- Auxiliary predicate for the parsing lemmas: the input continues
with a field separator (comma or newline) or has ended — the contexts
in which a rendered field is consumed. -/
def sepStart : List Char → Prop
  | [] => True
  | c :: _ => c = ',' ∨ c = '\n'

/-- The input the loader may face: a missing file, a file that does
not parse as a delimited table, or a well-formed table with some
header and string-cell rows. -/
inductive FileInput where
  | missing
  | malformed
  | wellFormed (header : List String) (rows : List (List String))

/-- How a load-time failure surfaces: `dataNotFound` is the
`FileNotFoundError` branch `load_data` catches (error message, `None`
result, `st.stop`); `parserError` is an uncaught `pd.read_csv`
exception on a malformed file; `keyError c` is an uncaught column
access on a missing column `c`. -/
inductive LoadFailure where
  | dataNotFound
  | parserError
  | keyError (col : String)
deriving DecidableEq

/-- The loaded frame in column-name form, for schema-level claims. -/
structure DynTable where
  header : List String
  rows : List (List String)
deriving DecidableEq

/-- The derived `AttritionNumeric` cell of a raw row, rendered the way
the frame stores it. -/
def mirrorCell (header : List String) (row : List String) : String :=
  toString (attritionMirror (row.get? (header.indexOf "Attrition")))

/-- `load_data`: `pd.read_csv` followed by the `AttritionNumeric`
derivation.  Only `FileNotFoundError` is caught; a malformed file or a
missing `Attrition` column raises out of the function.  No other
column is touched, so their absence does not fail the load. -/
def load_data : FileInput → Except LoadFailure DynTable
  | .missing => .error .dataNotFound
  | .malformed => .error .parserError
  | .wellFormed header rows =>
      if "Attrition" ∈ header then
        .ok ⟨header ++ ["AttritionNumeric"],
             rows.map fun r => r ++ [mirrorCell header r]⟩
      else .error (.keyError "Attrition")

/-- The columns the spec declares required in the input file. -/
def requiredColumns : List String :=
  ["EmployeeID", "Department", "JobRole", "City", "Gender",
   "YearsOfExperience", "SalaryINR", "Attrition"]

/-- The input lacks one of the required columns. -/
def lacksRequiredColumn : FileInput → Prop
  | .wellFormed header _ => ∃ c ∈ requiredColumns, c ∉ header
  | _ => False

/-- A column access `df[c]` on the loaded frame: the column values, or
the `KeyError` pandas raises when the column is absent. -/
def getCol (t : DynTable) (c : String) : Except LoadFailure (List String) :=
  if c ∈ t.header then .ok (t.rows.map fun r => r.getD (t.header.indexOf c) "")
  else .error (.keyError c)

/-- The sidebar initialisation that runs right after a successful
load: it touches the `Department`, `City` and `YearsOfExperience`
columns. -/
def sidebar_setup (t : DynTable) : Except LoadFailure Unit := do
  let _ ← getCol t "Department"
  let _ ← getCol t "City"
  let _ ← getCol t "YearsOfExperience"
  pure ()

/-- The startup path of the script: load, halt on a `None` result
(`st.stop`) or an uncaught exception, then run the sidebar setup on
the loaded frame. -/
def dashboard_startup (input : FileInput) : Except LoadFailure DynTable := do
  let df ← load_data input
  let _ ← sidebar_setup df
  pure df

section Proofs

theorem mem_uniqueVals {α : Type} [DecidableEq α] (a : α) :
    ∀ l : List α, a ∈ uniqueVals l ↔ a ∈ l := by
  intro l
  induction l with
  | nil => simp [uniqueVals]
  | cons x xs ih =>
      simp only [uniqueVals, List.mem_cons, List.mem_filter]
      constructor
      · rintro (rfl | ⟨h, _⟩)
        · exact Or.inl rfl
        · exact Or.inr (ih.mp h)
      · rintro (rfl | h)
        · exact Or.inl rfl
        · by_cases hx : a = x
          · exact Or.inl hx
          · exact Or.inr ⟨ih.mpr h, by simpa using hx⟩

theorem seriesMin_le {l : List Int} {m : Int} (h : seriesMin l = some m) :
    ∀ x ∈ l, m ≤ x := by
  match l with
  | [] => simp [seriesMin] at h
  | x :: xs =>
      simp only [seriesMin, Option.some.injEq] at h
      subst h
      have key : ∀ (ys : List Int) (acc : Int),
          ys.foldl min acc ≤ acc ∧ ∀ y ∈ ys, ys.foldl min acc ≤ y := by
        intro ys
        induction ys with
        | nil => simp
        | cons y ys ih =>
            intro acc
            refine ⟨?_, ?_⟩
            · exact le_trans (ih (min acc y)).1 (min_le_left _ _)
            · intro z hz
              rcases List.mem_cons.mp hz with rfl | hz
              · exact le_trans (ih (min acc z)).1 (min_le_right _ _)
              · exact (ih (min acc y)).2 z hz
      intro z hz
      rcases List.mem_cons.mp hz with rfl | hz
      · exact (key xs z).1
      · exact (key xs x).2 z hz

theorem le_seriesMax {l : List Int} {m : Int} (h : seriesMax l = some m) :
    ∀ x ∈ l, x ≤ m := by
  match l with
  | [] => simp [seriesMax] at h
  | x :: xs =>
      simp only [seriesMax, Option.some.injEq] at h
      subst h
      have key : ∀ (ys : List Int) (acc : Int),
          acc ≤ ys.foldl max acc ∧ ∀ y ∈ ys, y ≤ ys.foldl max acc := by
        intro ys
        induction ys with
        | nil => simp
        | cons y ys ih =>
            intro acc
            refine ⟨?_, ?_⟩
            · exact le_trans (le_max_left _ _) (ih (max acc y)).1
            · intro z hz
              rcases List.mem_cons.mp hz with rfl | hz
              · exact le_trans (le_max_right _ _) (ih (max acc z)).1
              · exact (ih (max acc y)).2 z hz
      intro z hz
      rcases List.mem_cons.mp hz with rfl | hz
      · exact (key xs z).1
      · exact (key xs x).2 z hz

theorem nodup_uniqueVals {α : Type} [DecidableEq α] :
    ∀ l : List α, (uniqueVals l).Nodup := by
  intro l
  induction l with
  | nil => simp [uniqueVals]
  | cons x xs ih =>
      rw [uniqueVals, List.nodup_cons]
      refine ⟨?_, ih.filter _⟩
      intro hx
      have := (List.mem_filter.mp hx).2
      simp at this

theorem toFinset_uniqueVals {α : Type} [DecidableEq α] (l : List α) :
    (uniqueVals l).toFinset = l.toFinset := by
  ext a
  simp [List.mem_toFinset, mem_uniqueVals]

theorem sum_count_uniqueVals {α : Type} [DecidableEq α] (l : List α) :
    ((uniqueVals l).map fun k => l.count k).sum = l.length := by
  rw [← List.sum_toFinset _ (nodup_uniqueVals l), toFinset_uniqueVals]
  exact List.sum_toFinset_count_eq_length l

theorem filter_length_eq_count {α β : Type} [DecidableEq β] (l : List α)
    (f : α → β) (k : β) :
    (l.filter fun a => decide (f a = k)).length = (l.map f).count k := by
  rw [← List.countP_eq_length_filter, List.count, List.countP_map]
  rfl

theorem groupCounts_sum {α β : Type} [DecidableEq β] (l : List α) (f : α → β) :
    ((uniqueVals (l.map f)).map
      fun k => (l.filter fun a => decide (f a = k)).length).sum = l.length := by
  have h1 : ((uniqueVals (l.map f)).map
      fun k => (l.filter fun a => decide (f a = k)).length) =
      ((uniqueVals (l.map f)).map fun k => (l.map f).count k) :=
    List.map_congr_left fun k _ => filter_length_eq_count l f k
  rw [h1]
  exact (sum_count_uniqueVals _).trans (by simp)

theorem group_length_pos {α β : Type} [DecidableEq β] (l : List α) (f : α → β)
    (k : β) (hk : k ∈ uniqueVals (l.map f)) :
    0 < (l.filter fun a => decide (f a = k)).length := by
  rw [filter_length_eq_count l f k]
  exact List.count_pos_iff.mpr ((mem_uniqueVals _ _).mp hk)

theorem list_inner_sq_le {α : Type} (l : List α) (f g : α → ℚ) :
    ((l.map fun a => f a * g a).sum) ^ 2 ≤
      ((l.map fun a => f a * f a).sum) * ((l.map fun a => g a * g a).sum) := by
  have hsum : ∀ h : α → ℚ, (l.map h).sum = ∑ i : Fin l.length, h (l.get i) := by
    intro h
    have h1 : l.map h = List.ofFn (h ∘ l.get) := by
      rw [← List.map_ofFn, List.ofFn_get]
    rw [h1, Fin.sum_ofFn]
    simp [Function.comp]
  rw [hsum, hsum, hsum]
  have h := Finset.sum_mul_sq_le_sq_mul_sq Finset.univ
    (fun i : Fin l.length => f (l.get i)) (fun i : Fin l.length => g (l.get i))
  simp only [pow_two] at h ⊢
  exact h

theorem sDev_comm (view : List Employee) (c d : NumCol) :
    sDev view c d = sDev view d c := by
  unfold sDev
  congr 1
  exact List.map_congr_left fun e _ => mul_comm _ _

theorem sDev_nonneg (view : List Employee) (c : NumCol) :
    0 ≤ sDev view c c := by
  refine List.sum_nonneg ?_
  intro x hx
  simp only [List.mem_map] at hx
  obtain ⟨e, _, rfl⟩ := hx
  exact mul_self_nonneg _

theorem sDev_sq_le (view : List Employee) (c d : NumCol) :
    (sDev view c d) ^ 2 ≤ sDev view c c * sDev view d d :=
  list_inner_sq_le view (fun e => colVal c e - colMean view c)
    (fun e => colVal d e - colMean view d)

theorem corr_comm (view : List Employee) (c d : NumCol) :
    corr view c d = corr view d c := by
  unfold corr
  rw [sDev_comm view c d, mul_comm (sDev view c c) (sDev view d d),
    mul_comm ((sDev view c c : ℚ) : ℝ) ((sDev view d d : ℚ) : ℝ)]

theorem corr_diag (view : List Employee) (c : NumCol)
    (h : sDev view c c ≠ 0) : corr view c c = some 1 := by
  have hpos : 0 < sDev view c c := (sDev_nonneg view c).lt_of_ne (Ne.symm h)
  have hR : (0 : ℝ) < ((sDev view c c : ℚ) : ℝ) := by exact_mod_cast hpos
  unfold corr
  rw [if_neg (mul_ne_zero h h)]
  rw [Real.sqrt_mul_self hR.le, div_self (ne_of_gt hR)]

theorem corr_bounds (view : List Employee) (c d : NumCol)
    (hc : sDev view c c ≠ 0) (hd : sDev view d d ≠ 0) :
    ∃ r : ℝ, corr view c d = some r ∧ -1 ≤ r ∧ r ≤ 1 := by
  have hcpos : 0 < sDev view c c := (sDev_nonneg view c).lt_of_ne (Ne.symm hc)
  have hdpos : 0 < sDev view d d := (sDev_nonneg view d).lt_of_ne (Ne.symm hd)
  have hPQ : (0 : ℝ) < ((sDev view c c : ℚ) : ℝ) * ((sDev view d d : ℚ) : ℝ) := by
    exact_mod_cast mul_pos hcpos hdpos
  have hsq : ((sDev view c d : ℚ) : ℝ) ^ 2 ≤
      ((sDev view c c : ℚ) : ℝ) * ((sDev view d d : ℚ) : ℝ) := by
    exact_mod_cast sDev_sq_le view c d
  have habs : |((sDev view c d : ℚ) : ℝ)| ≤
      Real.sqrt (((sDev view c c : ℚ) : ℝ) * ((sDev view d d : ℚ) : ℝ)) := by
    rw [← Real.sqrt_sq_eq_abs]
    exact Real.sqrt_le_sqrt hsq
  have hsqrtpos : 0 < Real.sqrt (((sDev view c c : ℚ) : ℝ) * ((sDev view d d : ℚ) : ℝ)) :=
    Real.sqrt_pos.mpr hPQ
  have hle : |((sDev view c d : ℚ) : ℝ) /
      Real.sqrt (((sDev view c c : ℚ) : ℝ) * ((sDev view d d : ℚ) : ℝ))| ≤ 1 := by
    rw [abs_div, abs_of_pos hsqrtpos]
    exact (div_le_one hsqrtpos).mpr habs
  refine ⟨_, ?_, (abs_le.mp hle).1, (abs_le.mp hle).2⟩
  unfold corr
  rw [if_neg (mul_ne_zero hc hd)]

theorem csvRun_comma (cs : List Char) (cur : List Char) (fs : List (List Char))
    (rows : List (List (List Char))) :
    csvRun (',' :: cs) false cur fs rows = csvRun cs false [] (fs ++ [cur]) rows := by
  rw [csvRun.eq_def]; simp

theorem csvRun_newline (cs : List Char) (cur : List Char) (fs : List (List Char))
    (rows : List (List (List Char))) :
    csvRun ('\n' :: cs) false cur fs rows =
      csvRun cs false [] [] (rows ++ [fs ++ [cur]]) := by
  rw [csvRun.eq_def]; simp

theorem csvRun_open_quote (cs : List Char) (fs : List (List Char))
    (rows : List (List (List Char))) :
    csvRun ('"' :: cs) false [] fs rows = csvRun cs true [] fs rows := by
  rw [csvRun.eq_def]; simp

theorem csvRun_other_false (c : Char) (h1 : c ≠ ',') (h2 : c ≠ '\n') (h3 : c ≠ '"')
    (cs cur : List Char) (fs : List (List Char)) (rows : List (List (List Char))) :
    csvRun (c :: cs) false cur fs rows = csvRun cs false (cur ++ [c]) fs rows := by
  rw [csvRun.eq_def]
  simp only [Bool.false_eq_true, if_false]
  rw [if_neg h1, if_neg h2, if_neg fun h => h3 h.1]

theorem csvRun_quo_other (c : Char) (h : c ≠ '"') (cs cur : List Char)
    (fs : List (List Char)) (rows : List (List (List Char))) :
    csvRun (c :: cs) true cur fs rows = csvRun cs true (cur ++ [c]) fs rows := by
  rw [csvRun.eq_def]
  simp only [if_true]
  rw [if_neg h]

theorem csvRun_quo_esc (cs2 cur : List Char) (fs : List (List Char))
    (rows : List (List (List Char))) :
    csvRun ('"' :: '"' :: cs2) true cur fs rows =
      csvRun cs2 true (cur ++ ['"']) fs rows := by
  rw [csvRun.eq_def]; simp

theorem csvRun_quo_close_cons (c2 : Char) (h : c2 ≠ '"') (cs2 cur : List Char)
    (fs : List (List Char)) (rows : List (List (List Char))) :
    csvRun ('"' :: c2 :: cs2) true cur fs rows =
      csvRun (c2 :: cs2) false cur fs rows := by
  rw [csvRun.eq_def]; simp [h]

theorem csvRun_quo_close_nil (cur : List Char) (fs : List (List Char))
    (rows : List (List (List Char))) :
    csvRun ['"'] true cur fs rows = csvRun [] false cur fs rows := by
  rw [csvRun.eq_def]
  simp
  rw [csvRun.eq_def]
  simp

theorem csvRun_escaped (f : List Char) : ∀ (rest cur : List Char)
    (fs : List (List Char)) (rows : List (List (List Char))), sepStart rest →
    csvRun (escapeQuotes f ++ '"' :: rest) true cur fs rows =
      csvRun rest false (cur ++ f) fs rows := by
  induction f with
  | nil =>
      intro rest cur fs rows hrest
      simp only [escapeQuotes, List.nil_append, List.append_nil]
      cases rest with
      | nil => exact csvRun_quo_close_nil cur fs rows
      | cons r rs =>
          have hr : r ≠ '"' := by
            rcases hrest with h | h <;> subst h <;> decide
          exact csvRun_quo_close_cons r hr rs cur fs rows
  | cons c f ih =>
      intro rest cur fs rows hrest
      by_cases hc : c = '"'
      · subst hc
        have he : escapeQuotes ('"' :: f) = '"' :: '"' :: escapeQuotes f := by
          simp [escapeQuotes]
        rw [he, List.cons_append, List.cons_append, csvRun_quo_esc,
          ih rest (cur ++ ['"']) fs rows hrest]
        simp
      · have he : escapeQuotes (c :: f) = c :: escapeQuotes f := by
          simp [escapeQuotes, hc]
        rw [he, List.cons_append, csvRun_quo_other c hc,
          ih rest (cur ++ [c]) fs rows hrest]
        simp

theorem csvRun_plain (f : List Char) : ∀ (rest cur : List Char)
    (fs : List (List Char)) (rows : List (List (List Char))),
    (∀ c ∈ f, isSpecialChar c = false) →
    csvRun (f ++ rest) false cur fs rows = csvRun rest false (cur ++ f) fs rows := by
  induction f with
  | nil => intro rest cur fs rows _; simp
  | cons c f ih =>
      intro rest cur fs rows hf
      have hc := hf c (List.mem_cons_self c f)
      have h1 : c ≠ ',' := by intro h; subst h; simp [isSpecialChar] at hc
      have h2 : c ≠ '\n' := by intro h; subst h; simp [isSpecialChar] at hc
      have h3 : c ≠ '"' := by intro h; subst h; simp [isSpecialChar] at hc
      rw [List.cons_append, csvRun_other_false c h1 h2 h3,
        ih rest (cur ++ [c]) fs rows fun x hx => hf x (List.mem_cons_of_mem c hx)]
      simp

theorem csvRun_field (f rest : List Char) (fs : List (List Char))
    (rows : List (List (List Char))) (hrest : sepStart rest) :
    csvRun (renderField f ++ rest) false [] fs rows = csvRun rest false f fs rows := by
  unfold renderField
  by_cases hq : f.any isSpecialChar
  · rw [if_pos hq]
    have hshape : ('"' :: (escapeQuotes f ++ ['"'])) ++ rest =
        '"' :: (escapeQuotes f ++ '"' :: rest) := by simp
    rw [hshape, csvRun_open_quote, csvRun_escaped f rest [] fs rows hrest,
      List.nil_append]
  · rw [if_neg hq]
    have hchars : ∀ c ∈ f, isSpecialChar c = false := by
      intro c hcm
      have hfalse : f.any isSpecialChar = false := Bool.eq_false_iff.mpr hq
      exact Bool.eq_false_iff.mpr (List.any_eq_false.mp hfalse c hcm)
    rw [csvRun_plain f rest [] fs rows hchars, List.nil_append]

theorem csvRun_record : ∀ (fields : List (List Char)), fields ≠ [] →
    ∀ (rest : List Char) (accFs : List (List Char)) (rows : List (List (List Char))),
    csvRun (renderRecord fields ++ '\n' :: rest) false [] accFs rows =
      csvRun rest false [] [] (rows ++ [accFs ++ fields]) := by
  intro fields
  induction fields with
  | nil => intro h; exact absurd rfl h
  | cons f fs ih =>
      intro _ rest accFs rows
      cases fs with
      | nil =>
          have hrr : renderRecord [f] = renderField f := rfl
          rw [hrr, csvRun_field f ('\n' :: rest) accFs rows (by simp [sepStart]),
            csvRun_newline]
      | cons f2 fs2 =>
          have hrr : renderRecord (f :: f2 :: fs2) =
              renderField f ++ ',' :: renderRecord (f2 :: fs2) := rfl
          have hshape : (renderField f ++ ',' :: renderRecord (f2 :: fs2)) ++ '\n' :: rest =
              renderField f ++ ',' :: (renderRecord (f2 :: fs2) ++ '\n' :: rest) := by
            simp
          rw [hrr, hshape,
            csvRun_field f (',' :: (renderRecord (f2 :: fs2) ++ '\n' :: rest)) accFs rows
              (by simp [sepStart]),
            csvRun_comma, ih (by simp) rest (accFs ++ [f]) rows]
          simp

theorem csvRun_renderCsv : ∀ (rs : List (List (List Char))), (∀ r ∈ rs, r ≠ []) →
    ∀ acc, csvRun (renderCsv rs) false [] [] acc = some (acc ++ rs) := by
  intro rs
  induction rs with
  | nil => intro _ acc; simp [renderCsv, csvRun]
  | cons r rs ih =>
      intro h acc
      have hrc : renderCsv (r :: rs) = renderRecord r ++ '\n' :: renderCsv rs := rfl
      rw [hrc, csvRun_record r (h r (List.mem_cons_self r rs)) (renderCsv rs) [] acc]
      simp only [List.nil_append]
      rw [ih (fun x hx => h x (List.mem_cons_of_mem r hx)) (acc ++ [r])]
      simp

theorem parseCsv_renderCsv (rs : List (List (List Char))) (h : ∀ r ∈ rs, r ≠ []) :
    parseCsv (renderCsv rs) = some rs := by
  rw [parseCsv, csvRun_renderCsv rs h [], List.nil_append]

theorem digitChar_isDigit {d : Nat} (h : d < 10) : (Nat.digitChar d).isDigit = true := by
  interval_cases d <;> decide

theorem digitVal_digitChar {d : Nat} (h : d < 10) : digitVal (Nat.digitChar d) = d := by
  interval_cases d <;> decide

theorem natChars_ne_nil (n : Nat) : natChars n ≠ [] := by
  rw [natChars]
  by_cases h : n = 0
  · simp [h]
  · simp [h, Nat.digits_ne_nil_iff_ne_zero]

theorem natChars_all_digits (n : Nat) : ∀ c ∈ natChars n, c.isDigit = true := by
  intro c hc
  rw [natChars] at hc
  by_cases h : n = 0
  · rw [if_pos h] at hc
    simp only [List.mem_singleton] at hc
    subst hc; decide
  · rw [if_neg h] at hc
    simp only [List.mem_map, List.mem_reverse] at hc
    obtain ⟨d, hd, rfl⟩ := hc
    exact digitChar_isDigit (Nat.digits_lt_base (by norm_num) hd)

theorem charsToNat_natChars (n : Nat) : charsToNat (natChars n) = some n := by
  by_cases h : n = 0
  · subst h; decide
  · rw [charsToNat, if_pos ⟨natChars_ne_nil n,
      List.all_eq_true.mpr (natChars_all_digits n)⟩]
    congr 1
    rw [natChars, if_neg h]
    simp only [List.map_reverse, List.reverse_reverse, List.map_map]
    have hmap : (Nat.digits 10 n).map (digitVal ∘ Nat.digitChar) = Nat.digits 10 n :=
      Eq.trans
        (List.map_congr_left fun d hd =>
          digitVal_digitChar (Nat.digits_lt_base (by norm_num) hd))
        (List.map_id _)
    rw [hmap]
    exact Nat.ofDigits_digits 10 n

theorem charsToInt_intChars (i : Int) : charsToInt (intChars i) = some i := by
  by_cases h : i < 0
  · rw [intChars, if_pos h]
    have hstep : charsToInt ('-' :: natChars i.natAbs) =
        (charsToNat (natChars i.natAbs)).map fun n : Nat => -(n : Int) := rfl
    rw [hstep, charsToNat_natChars, Option.map_some', Option.some.injEq]
    omega
  · rw [intChars, if_neg h]
    cases hnc : natChars i.natAbs with
    | nil => exact absurd hnc (natChars_ne_nil _)
    | cons c cs =>
        have hcd : c.isDigit = true :=
          natChars_all_digits i.natAbs c (hnc ▸ List.mem_cons_self c cs)
        have hc : c ≠ '-' := by
          intro hh; subst hh; revert hcd; decide
        have hstep : charsToInt (c :: cs) =
            if c = '-' then (charsToNat cs).map (fun n : Nat => -(n : Int))
            else (charsToNat (c :: cs)).map fun n : Nat => (n : Int) := rfl
        rw [hstep, if_neg hc, ← hnc, charsToNat_natChars, Option.map_some',
          Option.some.injEq]
        omega

theorem decodeRow_rowCells (e : Employee) : decodeRow (rowCells e) = some e := by
  simp [rowCells, decodeRow, charsToInt_intChars]

theorem decodeRows_map (view : List Employee) :
    decodeRows (view.map rowCells) = some view := by
  induction view with
  | nil => rfl
  | cons e es ih => simp [decodeRows, decodeRow_rowCells, ih]

theorem decodeTable_csvGrid (view : List Employee) :
    decodeTable (csvGrid view) = some view := by
  simp [decodeTable, csvGrid, decodeRows_map]

theorem csvGrid_records_ne_nil (view : List Employee) :
    ∀ r ∈ csvGrid view, r ≠ [] := by
  intro r hr
  rcases List.mem_cons.mp hr with rfl | hr
  · simp [headerCells]
  · obtain ⟨e, _, rfl⟩ := List.mem_map.mp hr
    simp [rowCells]

theorem mem_filtered_df (df : List Employee) (sel : Selection) (e : Employee) :
    e ∈ filtered_df df sel ↔
      e ∈ df ∧ e.department ∈ sel.departments ∧ e.city ∈ sel.cities ∧
        sel.expRange.1 ≤ e.yearsOfExperience ∧
        e.yearsOfExperience ≤ sel.expRange.2 := by
  simp [filtered_df, List.mem_filter, and_assoc]

theorem filtered_df_reset (df : List Employee) (sel : Selection)
    (hd : sel.departments = uniqueVals (df.map Employee.department))
    (hc : sel.cities = uniqueVals (df.map Employee.city))
    (hmin : seriesMin (df.map Employee.yearsOfExperience) = some sel.expRange.1)
    (hmax : seriesMax (df.map Employee.yearsOfExperience) = some sel.expRange.2) :
    filtered_df df sel = df := by
  apply List.filter_eq_self.mpr
  intro e he
  simp only [Bool.and_eq_true, decide_eq_true_eq]
  refine ⟨⟨⟨?_, ?_⟩, ?_⟩, ?_⟩
  · rw [hd]
    exact List.elem_eq_true_of_mem
      ((mem_uniqueVals _ _).mpr (List.mem_map_of_mem _ he))
  · rw [hc]
    exact List.elem_eq_true_of_mem
      ((mem_uniqueVals _ _).mpr (List.mem_map_of_mem _ he))
  · exact seriesMin_le hmin _ (List.mem_map_of_mem _ he)
  · exact le_seriesMax hmax _ (List.mem_map_of_mem _ he)

theorem attrition_count_le (view : List Employee) :
    attrition_count view ≤ total_employees view :=
  List.length_filter_le _ _

theorem attrition_rate_nonneg (view : List Employee) : 0 ≤ attrition_rate view := by
  rw [attrition_rate]
  split
  · positivity
  · exact le_refl 0

theorem attrition_rate_le_100 (view : List Employee) : attrition_rate view ≤ 100 := by
  rw [attrition_rate]
  split
  · rename_i h
    have hc : (attrition_count view : ℚ) ≤ (total_employees view : ℚ) :=
      Nat.cast_le.mpr (attrition_count_le view)
    have ht : (0 : ℚ) < (total_employees view : ℚ) := by exact_mod_cast h
    calc (attrition_count view : ℚ) / (total_employees view : ℚ) * 100
        ≤ 1 * 100 :=
          mul_le_mul_of_nonneg_right ((div_le_one ht).mpr hc) (by norm_num)
      _ = 100 := by norm_num
  · norm_num

theorem attrition_rate_eq_zero_iff (view : List Employee) :
    attrition_rate view = 0 ↔
      total_employees view = 0 ∨ attrition_count view = 0 := by
  rw [attrition_rate]
  split
  · rename_i h
    have ht : (total_employees view : ℚ) ≠ 0 := by
      exact_mod_cast Nat.pos_iff_ne_zero.mp h
    constructor
    · intro h0
      rcases mul_eq_zero.mp h0 with h1 | h1
      · rcases div_eq_zero_iff.mp h1 with h2 | h2
        · right; exact_mod_cast h2
        · exact absurd h2 ht
      · norm_num at h1
    · rintro (h0 | h0)
      · exact absurd h0 (Nat.pos_iff_ne_zero.mp h)
      · rw [h0]; norm_num
  · rename_i h
    simp only [not_lt, Nat.le_zero] at h
    simp [h]

end Proofs

section Claims

/-- C1: for every filter selection, the Filtered View is a subset
(indeed a sublist) of the full table, and a row is in the view exactly
when its department is among the selected departments, its city among
the selected cities, and its years of experience lies inclusively
between the slider bounds — a conjunction of all three predicates. -/
theorem claim_C1 (df : List Employee) (sel : Selection) :
    (filtered_df df sel).Sublist df ∧
    ∀ e : Employee, e ∈ filtered_df df sel ↔
      e ∈ df ∧ e.department ∈ sel.departments ∧ e.city ∈ sel.cities ∧
        sel.expRange.1 ≤ e.yearsOfExperience ∧
        e.yearsOfExperience ≤ sel.expRange.2 :=
  ⟨List.filter_sublist df, mem_filtered_df df sel⟩

theorem claim_C1_witness :
    sampleYes ∈ filtered_df [sampleYes] ⟨["Technology"], ["Delhi"], (0, 10)⟩ :=
  ((claim_C1 [sampleYes] ⟨["Technology"], ["Delhi"], (0, 10)⟩).2 sampleYes).mpr
    (by decide)

/-- C2 as frozen fails on the empty dataset: there `Series.min` is NaN
and the handler's `int(...)` conversion raises, so Reset produces no
selection at all (and hence no Filtered View equal to the full
table). -/
theorem claim_C2_counterexample :
    reset_selection ([] : List Employee) = none := rfl

/-- C2 (amended): for every NON-EMPTY dataset, Reset succeeds and sets
the department subset to all departments present, the city subset to
all cities present, and the experience range to the observed
min and max; filtering with the reset selection returns the full
table. -/
theorem claim_C2 (df : List Employee) (h : df ≠ []) :
    reset_selection df ≠ none ∧
    ∀ sel : Selection, reset_selection df = some sel →
      sel.departments = uniqueVals (df.map Employee.department) ∧
      sel.cities = uniqueVals (df.map Employee.city) ∧
      seriesMin (df.map Employee.yearsOfExperience) = some sel.expRange.1 ∧
      seriesMax (df.map Employee.yearsOfExperience) = some sel.expRange.2 ∧
      filtered_df df sel = df := by
  match df, h with
  | e0 :: rest, _ =>
      have hres : reset_selection (e0 :: rest) =
          some ⟨uniqueVals ((e0 :: rest).map Employee.department),
                uniqueVals ((e0 :: rest).map Employee.city),
                ((rest.map Employee.yearsOfExperience).foldl min e0.yearsOfExperience,
                 (rest.map Employee.yearsOfExperience).foldl max e0.yearsOfExperience)⟩ :=
        rfl
      constructor
      · rw [hres]; exact Option.some_ne_none _
      · intro sel hsel
        rw [hres, Option.some.injEq] at hsel
        subst hsel
        refine ⟨rfl, rfl, rfl, rfl, ?_⟩
        exact filtered_df_reset _ _ rfl rfl rfl rfl

theorem claim_C2_witness :
    filtered_df [sampleNo] ⟨["Sales"], ["Pune"], (3, 3)⟩ = [sampleNo] :=
  (((claim_C2 [sampleNo] (by simp)).2 ⟨["Sales"], ["Pune"], (3, 3)⟩
    rfl).2.2.2.2)

/-- C3: the attrition-rate KPI equals `count / total * 100` on a
non-empty view, is 0 on an empty view by the explicit guard, always
lies in [0, 100], and vanishes exactly when the view is empty or
contains no `"Yes"` row. -/
theorem claim_C3 (view : List Employee) :
    0 ≤ attrition_rate view ∧
    attrition_rate view ≤ 100 ∧
    (attrition_rate view = 0 ↔
      total_employees view = 0 ∨ attrition_count view = 0) ∧
    (0 < total_employees view →
      attrition_rate view =
        (attrition_count view : ℚ) / (total_employees view : ℚ) * 100) ∧
    (total_employees view = 0 → attrition_rate view = 0) :=
  ⟨attrition_rate_nonneg view, attrition_rate_le_100 view,
   attrition_rate_eq_zero_iff view,
   fun h => by rw [attrition_rate, if_pos h],
   fun h => by rw [attrition_rate, if_neg (by omega)]⟩

theorem claim_C3_witness : attrition_rate ([] : List Employee) = 0 :=
  (claim_C3 []).2.2.2.2 rfl

/-- C4 as frozen fails: an input table that has the `Attrition` column
but lacks the required `Department` column is loaded successfully — a
table IS produced and downstream computation DOES run (the sidebar
setup), failing only there with a `KeyError` — contradicting "the
dataset load operation fails ... whenever the input ... lacks any
required column". -/
theorem claim_C4_counterexample :
    lacksRequiredColumn (FileInput.wellFormed ["Attrition"] []) ∧
    load_data (FileInput.wellFormed ["Attrition"] []) =
      Except.ok ⟨["Attrition", "AttritionNumeric"], []⟩ ∧
    dashboard_startup (FileInput.wellFormed ["Attrition"] []) =
      Except.error (LoadFailure.keyError "Department") :=
  ⟨⟨"Department", by decide, by decide⟩, rfl, rfl⟩

/-- C4 (amended): the load fails explicitly and startup halts when the
file is missing (`DataNotFound`, the handled branch), when it is
malformed (uncaught parser exception), or when the `Attrition` column
— the only one the loader itself touches — is absent (uncaught
`KeyError`); every load failure propagates so no downstream
computation runs.  When `Attrition` is present the load succeeds even
if other required columns are missing; their absence surfaces only in
downstream column accesses. -/
theorem claim_C4 :
    load_data FileInput.missing = Except.error LoadFailure.dataNotFound ∧
    load_data FileInput.malformed = Except.error LoadFailure.parserError ∧
    (∀ header rows, "Attrition" ∉ header →
      load_data (FileInput.wellFormed header rows) =
        Except.error (LoadFailure.keyError "Attrition")) ∧
    (∀ input e, load_data input = Except.error e →
      dashboard_startup input = Except.error e) ∧
    (∀ header rows, "Attrition" ∈ header →
      ∃ t : DynTable, load_data (FileInput.wellFormed header rows) = Except.ok t) := by
  refine ⟨rfl, rfl, ?_, ?_, ?_⟩
  · intro header rows h
    rw [load_data, if_neg h]
  · intro input e h
    simp [dashboard_startup, h, Bind.bind, Except.bind]
  · intro header rows h
    rw [load_data, if_pos h]
    exact ⟨_, rfl⟩

theorem claim_C4_witness :
    load_data (FileInput.wellFormed ["EmployeeID"] []) =
      Except.error (LoadFailure.keyError "Attrition") ∧
    dashboard_startup FileInput.missing =
      Except.error LoadFailure.dataNotFound :=
  ⟨claim_C4.2.2.1 ["EmployeeID"] [] (by decide),
   claim_C4.2.2.2.1 FileInput.missing LoadFailure.dataNotFound claim_C4.1⟩

/-- C5: the attrition-by-department aggregation groups the view by
(department, attrition) and counts rows per occurring key; the counts
sum to the total row count of the view, and no zero-count group
appears. -/
theorem claim_C5 (view : List Employee) :
    ((attrition_dept view).map Prod.snd).sum = total_employees view ∧
    ∀ g ∈ attrition_dept view, 0 < g.2 := by
  constructor
  · rw [attrition_dept, List.map_map]
    have h2 : (Prod.snd ∘ fun k : String × String =>
        (k, (view.filter fun e => decide ((e.department, e.attrition) = k)).length)) =
        fun k : String × String =>
          (view.filter fun e => decide ((e.department, e.attrition) = k)).length := rfl
    rw [h2]
    exact groupCounts_sum view (fun e => (e.department, e.attrition))
  · intro g hg
    rw [attrition_dept] at hg
    obtain ⟨k, hk, rfl⟩ := List.mem_map.mp hg
    exact group_length_pos view (fun e => (e.department, e.attrition)) k hk

theorem claim_C5_witness :
    ((attrition_dept [sampleYes]).map Prod.snd).sum =
      total_employees [sampleYes] ∧
    0 < ((("Technology", "Yes"), 1) : (String × String) × Nat).2 :=
  ⟨(claim_C5 [sampleYes]).1,
   (claim_C5 [sampleYes]).2 (("Technology", "Yes"), 1) (by decide)⟩

/-- C6: on an empty Filtered View every aggregation yields its empty
result structure, the average-salary KPI is NaN and rendered as such
(not an error), the attrition rate is the guarded 0, and the
role-distribution panel reports "no data"; the role panel reports
"no data" whenever the Technology-restricted view is empty, even if
the Filtered View itself is not. -/
theorem claim_C6 (df : List Employee) (sel : Selection) :
    (filtered_df df sel = [] →
      attrition_dept (filtered_df df sel) = [] ∧
      gender_counts (filtered_df df sel) = [] ∧
      salary_values (filtered_df df sel) = [] ∧
      scatter_points (filtered_df df sel) = [] ∧
      avg_salary (filtered_df df sel) = none ∧
      avg_salary_metric (filtered_df df sel) = SalaryMetric.nanDisplay ∧
      roles_section (filtered_df df sel) = RoleChart.noData ∧
      attrition_rate (filtered_df df sel) = 0) ∧
    ∀ view : List Employee, tech_df view = [] →
      roles_section view = RoleChart.noData := by
  constructor
  · intro h
    rw [h]
    exact ⟨rfl, rfl, rfl, rfl, rfl, rfl, by decide, by decide⟩
  · intro view hview
    rw [roles_section, if_pos hview]

theorem claim_C6_witness :
    roles_section (filtered_df [] ⟨[], [], (0, 0)⟩) = RoleChart.noData ∧
    avg_salary_metric (filtered_df [] ⟨[], [], (0, 0)⟩) = SalaryMetric.nanDisplay ∧
    roles_section [sampleNo] = RoleChart.noData := by
  have h := claim_C6 [] ⟨[], [], (0, 0)⟩
  have h1 := h.1 rfl
  exact ⟨h1.2.2.2.2.2.2.1, h1.2.2.2.2.2.1, h.2 [sampleNo] (by decide)⟩

/-- C7: an empty heatmap column selection skips the computation and
surfaces the warning branch instead of a degenerate matrix; a
non-empty selection produces exactly the pairwise correlation matrix
over the chosen columns; the default selection excludes `EmployeeID`
and `AttritionNumeric`, yet both remain among the selectable
options. -/
theorem claim_C7 (view : List Employee) (sel : List NumCol) :
    corr_section view [] = CorrSection.emptySelectionWarning ∧
    (sel ≠ [] → corr_section view sel =
      CorrSection.heatmap (sel.map fun c => sel.map fun d => corr view c d)) ∧
    default_corr_cols = [NumCol.yearsOfExperience, NumCol.salaryINR] ∧
    NumCol.employeeID ∈ numerical_cols ∧
    NumCol.attritionNumeric ∈ numerical_cols := by
  refine ⟨by simp [corr_section], ?_, by decide, by decide, by decide⟩
  intro h
  rw [corr_section, if_neg h]
  rfl

theorem claim_C7_witness :
    corr_section [] [NumCol.salaryINR] =
      CorrSection.heatmap [[corr [] NumCol.salaryINR NumCol.salaryINR]] :=
  (claim_C7 [] [NumCol.salaryINR]).2.1 (by simp)

/-- C8 as frozen fails: on a single-row Filtered View the salary
column has zero squared deviation, so `DataFrame.corr` produces NaN
(modelled `none`) on the diagonal, not 1.0. -/
theorem claim_C8_counterexample :
    corr [sampleYes] NumCol.salaryINR NumCol.salaryINR = none ∧
    corr [sampleYes] NumCol.salaryINR NumCol.salaryINR ≠ some 1 := by
  have h : corr [sampleYes] NumCol.salaryINR NumCol.salaryINR = none := by
    unfold corr
    rw [if_pos (by norm_num [sDev, colMean, colVal, sampleYes])]
  exact ⟨h, by rw [h]; simp⟩

/-- C8 (amended): every correlation entry is symmetric in its two
columns; when a chosen column has nonzero squared-deviation sum over
the view its diagonal entry is exactly 1.0; when both columns have
nonzero squared-deviation sums the entry is a defined real in
[-1, 1]; and when either column has zero variance the entry is the
NaN (`none`) pandas produces rather than a number. -/
theorem claim_C8 (view : List Employee) (c d : NumCol) :
    corr view c d = corr view d c ∧
    (sDev view c c ≠ 0 → corr view c c = some 1) ∧
    (sDev view c c ≠ 0 → sDev view d d ≠ 0 →
      ∃ r : ℝ, corr view c d = some r ∧ -1 ≤ r ∧ r ≤ 1) ∧
    (sDev view c c * sDev view d d = 0 → corr view c d = none) :=
  ⟨corr_comm view c d,
   fun h => corr_diag view c h,
   fun hc hd => corr_bounds view c d hc hd,
   fun h => by unfold corr; rw [if_pos h]⟩

theorem claim_C8_witness :
    corr [sampleA, sampleB] NumCol.salaryINR NumCol.salaryINR = some 1 ∧
    corr [sampleA, sampleB] NumCol.yearsOfExperience NumCol.salaryINR =
      corr [sampleA, sampleB] NumCol.salaryINR NumCol.yearsOfExperience ∧
    corr [sampleA, sampleB] NumCol.yearsOfExperience NumCol.salaryINR ≠ none := by
  refine ⟨(claim_C8 [sampleA, sampleB] NumCol.salaryINR NumCol.salaryINR).2.1
      (by norm_num [sDev, colMean, colVal, sampleA, sampleB]),
    (claim_C8 [sampleA, sampleB] NumCol.yearsOfExperience NumCol.salaryINR).1, ?_⟩
  obtain ⟨r, hr, -, -⟩ :=
    (claim_C8 [sampleA, sampleB] NumCol.yearsOfExperience NumCol.salaryINR).2.2.1
      (by norm_num [sDev, colMean, colVal, sampleA, sampleB])
      (by norm_num [sDev, colMean, colVal, sampleA, sampleB])
  rw [hr]
  simp

/-- C9: exporting any Filtered View with `convert_df_to_csv` and
parsing the stream back yields exactly the grid of the view — the
input column layout plus the derived `AttritionNumeric` column as
header, and the view's rows in order — and typing that grid
reconstructs the view's rows exactly (round-trip). -/
theorem claim_C9 (df : List Employee) (sel : Selection) :
    parseCsv (convert_df_to_csv (filtered_df df sel)) =
      some (csvGrid (filtered_df df sel)) ∧
    decodeTable (csvGrid (filtered_df df sel)) = some (filtered_df df sel) :=
  ⟨parseCsv_renderCsv _ (csvGrid_records_ne_nil _),
   decodeTable_csvGrid _⟩

theorem claim_C9_witness :
    parseCsv (convert_df_to_csv (filtered_df [sampleYes, sampleNo]
        ⟨["Technology", "Sales"], ["Delhi", "Pune"], (0, 10)⟩)) =
      some (csvGrid (filtered_df [sampleYes, sampleNo]
        ⟨["Technology", "Sales"], ["Delhi", "Pune"], (0, 10)⟩)) :=
  (claim_C9 [sampleYes, sampleNo]
    ⟨["Technology", "Sales"], ["Delhi", "Pune"], (0, 10)⟩).1

/-- C10 (implicit): the derived numeric attrition mirror is total over
arbitrary attrition values — 1 exactly for the literal `"Yes"`, 0 for
every other value including missing ones — and the loader never
rejects a row for an unexpected attrition value: it returns exactly
one output row per input row. -/
theorem claim_C10 :
    (∀ v : Option String, attritionMirror v = 1 ↔ v = some "Yes") ∧
    (∀ v : Option String, v ≠ some "Yes" → attritionMirror v = 0) ∧
    attritionMirror none = 0 ∧
    (∀ e : Employee, attritionNumeric e = 1 ↔ e.attrition = "Yes") ∧
    (∀ header rows, "Attrition" ∈ header →
      ∃ t : DynTable, load_data (.wellFormed header rows) = Except.ok t ∧
        t.rows.length = rows.length) := by
  refine ⟨?_, ?_, rfl, ?_, ?_⟩
  · intro v
    rw [attritionMirror]
    split
    · rename_i h; simp [h]
    · rename_i h; simp [h]
  · intro v h
    rw [attritionMirror, if_neg h]
  · intro e
    rw [attritionNumeric, attritionMirror]
    split
    · rename_i h
      simp only [Option.some.injEq] at h
      simp [h]
    · rename_i h
      simp only [Option.some.injEq] at h
      simp [h]
  · intro header rows h
    rw [load_data, if_pos h]
    exact ⟨_, rfl, by simp⟩

theorem claim_C10_witness :
    attritionMirror (some "Maybe") = 0 ∧ attritionMirror none = 0 :=
  ⟨claim_C10.2.1 (some "Maybe") (by simp), claim_C10.2.2.1⟩

end Claims
